import Mathlib

/-!
Verification of the 4×4 homogeneous-matrix algebra of `matrix.py`.

The source works over double-precision floats; the embedding works over `ℚ`,
so "equal within floating-point tolerance" is read as exact equality of the
underlying rational-function algebra.  The transcendental helpers
`1 / tan(radians(fov) / 2)` that the source computes inside `projection` are
not expressible computably, so the projection builders take those two factors
(`w`, `h`) as explicit parameters; for a field-of-view angle in (0°, 180°)
the factor is an arbitrary positive real, which the theorems model as a
rational parameter constrained to be nonzero (or positive) as needed.
Everything else is transcribed cell by cell from the source.
-/

namespace MatrixPy

/-- A 4×4 matrix of rationals, row-major: field `mij` is the source's `m[i,j]`. -/
structure Matrix4 where
  m00 : ℚ
  m01 : ℚ
  m02 : ℚ
  m03 : ℚ
  m10 : ℚ
  m11 : ℚ
  m12 : ℚ
  m13 : ℚ
  m20 : ℚ
  m21 : ℚ
  m22 : ℚ
  m23 : ℚ
  m30 : ℚ
  m31 : ℚ
  m32 : ℚ
  m33 : ℚ
deriving DecidableEq

/-- A homogeneous coordinate (x, y, z, w), the source's 4-element row vector. -/
structure Vec4 where
  x : ℚ
  y : ℚ
  z : ℚ
  w : ℚ
deriving DecidableEq

theorem Matrix4.eq_iff_cells {a b : Matrix4} :
    a = b ↔ a.m00 = b.m00 ∧ a.m01 = b.m01 ∧ a.m02 = b.m02 ∧ a.m03 = b.m03 ∧
      a.m10 = b.m10 ∧ a.m11 = b.m11 ∧ a.m12 = b.m12 ∧ a.m13 = b.m13 ∧
      a.m20 = b.m20 ∧ a.m21 = b.m21 ∧ a.m22 = b.m22 ∧ a.m23 = b.m23 ∧
      a.m30 = b.m30 ∧ a.m31 = b.m31 ∧ a.m32 = b.m32 ∧ a.m33 = b.m33 := by
  constructor
  · rintro rfl
    exact ⟨rfl, rfl, rfl, rfl, rfl, rfl, rfl, rfl,
      rfl, rfl, rfl, rfl, rfl, rfl, rfl, rfl⟩
  · rintro ⟨h00, h01, h02, h03, h10, h11, h12, h13,
      h20, h21, h22, h23, h30, h31, h32, h33⟩
    cases a; cases b
    simp_all

theorem Vec4.eq_iff_comps {a b : Vec4} :
    a = b ↔ a.x = b.x ∧ a.y = b.y ∧ a.z = b.z ∧ a.w = b.w := by
  constructor
  · rintro rfl; exact ⟨rfl, rfl, rfl, rfl⟩
  · rintro ⟨hx, hy, hz, hw⟩; cases a; cases b; simp_all

/-- Elementwise division of a matrix by a scalar, the source's `n / d`
(numpy broadcasts the scalar over all 16 cells). -/
def Matrix4.sdiv (n : Matrix4) (d : ℚ) : Matrix4 :=
  ⟨n.m00 / d, n.m01 / d, n.m02 / d, n.m03 / d,
   n.m10 / d, n.m11 / d, n.m12 / d, n.m13 / d,
   n.m20 / d, n.m21 / d, n.m22 / d, n.m23 / d,
   n.m30 / d, n.m31 / d, n.m32 / d, n.m33 / d⟩

/-- Elementwise division of a row vector by a scalar, the source's
`near_origin / near_origin[0,3]`. -/
def Vec4.sdiv (v : Vec4) (d : ℚ) : Vec4 :=
  ⟨v.x / d, v.y / d, v.z / d, v.w / d⟩

/-- The 4×4 identity matrix (`np.identity(4)`). -/
def identity4 : Matrix4 :=
  ⟨1, 0, 0, 0,
   0, 1, 0, 0,
   0, 0, 1, 0,
   0, 0, 0, 1⟩

/-- Matrix product: cell (y,x) is the dot product of row y of `m1` with
column x of `m2`, exactly the source's `multiply` (which transposes `m2` and
takes 4-wide dot products of rows; numerically the standard product). -/
def multiply (m1 m2 : Matrix4) : Matrix4 where
  m00 := m1.m00 * m2.m00 + m1.m01 * m2.m10 + m1.m02 * m2.m20 + m1.m03 * m2.m30
  m01 := m1.m00 * m2.m01 + m1.m01 * m2.m11 + m1.m02 * m2.m21 + m1.m03 * m2.m31
  m02 := m1.m00 * m2.m02 + m1.m01 * m2.m12 + m1.m02 * m2.m22 + m1.m03 * m2.m32
  m03 := m1.m00 * m2.m03 + m1.m01 * m2.m13 + m1.m02 * m2.m23 + m1.m03 * m2.m33
  m10 := m1.m10 * m2.m00 + m1.m11 * m2.m10 + m1.m12 * m2.m20 + m1.m13 * m2.m30
  m11 := m1.m10 * m2.m01 + m1.m11 * m2.m11 + m1.m12 * m2.m21 + m1.m13 * m2.m31
  m12 := m1.m10 * m2.m02 + m1.m11 * m2.m12 + m1.m12 * m2.m22 + m1.m13 * m2.m32
  m13 := m1.m10 * m2.m03 + m1.m11 * m2.m13 + m1.m12 * m2.m23 + m1.m13 * m2.m33
  m20 := m1.m20 * m2.m00 + m1.m21 * m2.m10 + m1.m22 * m2.m20 + m1.m23 * m2.m30
  m21 := m1.m20 * m2.m01 + m1.m21 * m2.m11 + m1.m22 * m2.m21 + m1.m23 * m2.m31
  m22 := m1.m20 * m2.m02 + m1.m21 * m2.m12 + m1.m22 * m2.m22 + m1.m23 * m2.m32
  m23 := m1.m20 * m2.m03 + m1.m21 * m2.m13 + m1.m22 * m2.m23 + m1.m23 * m2.m33
  m30 := m1.m30 * m2.m00 + m1.m31 * m2.m10 + m1.m32 * m2.m20 + m1.m33 * m2.m30
  m31 := m1.m30 * m2.m01 + m1.m31 * m2.m11 + m1.m32 * m2.m21 + m1.m33 * m2.m31
  m32 := m1.m30 * m2.m02 + m1.m31 * m2.m12 + m1.m32 * m2.m22 + m1.m33 * m2.m32
  m33 := m1.m30 * m2.m03 + m1.m31 * m2.m13 + m1.m32 * m2.m23 + m1.m33 * m2.m33

/-- Row vector times matrix, the source's `[x, y, z, w] * m` (numpy
1×4 row-vector × 4×4 matrix product). -/
def vecMul (v : Vec4) (m : Matrix4) : Vec4 where
  x := v.x * m.m00 + v.y * m.m10 + v.z * m.m20 + v.w * m.m30
  y := v.x * m.m01 + v.y * m.m11 + v.z * m.m21 + v.w * m.m31
  z := v.x * m.m02 + v.y * m.m12 + v.z * m.m22 + v.w * m.m32
  w := v.x * m.m03 + v.y * m.m13 + v.z * m.m23 + v.w * m.m33

/-- `translate(x, y, z)`: identity with the offset in row 3. -/
def translate (x y z : ℚ) : Matrix4 :=
  ⟨1, 0, 0, 0,
   0, 1, 0, 0,
   0, 0, 1, 0,
   x, y, z, 1⟩

/-- `scale(x, y, z)`: diag(x, y, z, 1). -/
def scale (x y z : ℚ) : Matrix4 :=
  ⟨x, 0, 0, 0,
   0, y, 0, 0,
   0, 0, z, 0,
   0, 0, 0, 1⟩

/-- `projection(near, far, fov_horiz, fov_vert)`.  The source computes
`w = 1/tan(radians(fov_horiz)/2)` and `h = 1/tan(radians(fov_vert)/2)`;
those two transcendental factors are taken here as the parameters `w`, `h`
(nonzero — indeed positive — for any field of view in (0°, 180°)).
`q = far/(far - near)` is transcribed as in the source. -/
def projection (near far w h : ℚ) : Matrix4 :=
  let q := far / (far - near)
  ⟨w, 0, 0, 0,
   0, h, 0, 0,
   0, 0, q, 1,
   0, 0, -q * near, 0⟩

/-- `projection_nv_equiv(near, far, fov_horiz, fov_vert, separation,
convergence)`: the (left, right) stereo pair of projection matrices, with
the tan factors `w`, `h` passed as parameters as in `projection`. -/
def projection_nv_equiv (near far w h separation convergence : ℚ) :
    Matrix4 × Matrix4 :=
  let q := far / (far - near)
  let left : Matrix4 :=
    ⟨w, 0, 0, 0,
     0, h, 0, 0,
     -separation, 0, q, 1,
     separation * convergence, 0, -q * near, 0⟩
  let right : Matrix4 :=
    ⟨w, 0, 0, 0,
     0, h, 0, 0,
     separation, 0, q, 1,
     -separation * convergence, 0, -q * near, 0⟩
  (left, right)

/-- `nv_equiv_multiplier(near, far, sep, conv)`: the stereo-correction
multiplier matrix. -/
def nv_equiv_multiplier (near far sep conv : ℚ) : Matrix4 :=
  let q := far / (far - near)
  ⟨1, 0, 0, 0,
   0, 1, 0, 0,
   sep * conv / (q * near), 0, 1, 0,
   sep - sep * conv / near, 0, 0, 1⟩

/-- `nv_equiv_multiplier_inv(near, far, sep, conv)`: the inverse of the
stereo-correction multiplier (negation of the two off-diagonal cells). -/
def nv_equiv_multiplier_inv (near far sep conv : ℚ) : Matrix4 :=
  let q := far / (far - near)
  ⟨1, 0, 0, 0,
   0, 1, 0, 0,
   -(sep * conv) / (q * near), 0, 1, 0,
   -sep + sep * conv / near, 0, 0, 1⟩

/-- `determinant(m)`: the general 24-term 4×4 determinant, transcribed
term by term. -/
def determinant (m : Matrix4) : ℚ :=
  m.m03 * m.m12 * m.m21 * m.m30 - m.m02 * m.m13 * m.m21 * m.m30 -
    m.m03 * m.m11 * m.m22 * m.m30 + m.m01 * m.m13 * m.m22 * m.m30 +
  m.m02 * m.m11 * m.m23 * m.m30 - m.m01 * m.m12 * m.m23 * m.m30 -
    m.m03 * m.m12 * m.m20 * m.m31 + m.m02 * m.m13 * m.m20 * m.m31 +
  m.m03 * m.m10 * m.m22 * m.m31 - m.m00 * m.m13 * m.m22 * m.m31 -
    m.m02 * m.m10 * m.m23 * m.m31 + m.m00 * m.m12 * m.m23 * m.m31 +
  m.m03 * m.m11 * m.m20 * m.m32 - m.m01 * m.m13 * m.m20 * m.m32 -
    m.m03 * m.m10 * m.m21 * m.m32 + m.m00 * m.m13 * m.m21 * m.m32 +
  m.m01 * m.m10 * m.m23 * m.m32 - m.m00 * m.m11 * m.m23 * m.m32 -
    m.m02 * m.m11 * m.m20 * m.m33 + m.m01 * m.m12 * m.m20 * m.m33 +
  m.m02 * m.m10 * m.m21 * m.m33 - m.m00 * m.m12 * m.m21 * m.m33 -
    m.m01 * m.m10 * m.m22 * m.m33 + m.m00 * m.m11 * m.m22 * m.m33

/-- `determinant_euclidean(m)`: the 6-term 3×3 determinant of the
upper-left block (the simple case assuming the last column is 0,0,0,1). -/
def determinant_euclidean (m : Matrix4) : ℚ :=
  0 + m.m00 * m.m11 * m.m22
    - m.m00 * m.m12 * m.m21
    + m.m01 * m.m12 * m.m20
    - m.m01 * m.m10 * m.m22
    + m.m02 * m.m10 * m.m21
    - m.m02 * m.m11 * m.m20

/-- `_inverse(m, d)`: the 16-cell cofactor (adjugate) matrix divided by `d`,
transcribed cell by cell from the source. -/
def inverseAux (m : Matrix4) (d : ℚ) : Matrix4 :=
  let n : Matrix4 :=
    ⟨m.m12 * m.m23 * m.m31 - m.m13 * m.m22 * m.m31 + m.m13 * m.m21 * m.m32 -
       m.m11 * m.m23 * m.m32 - m.m12 * m.m21 * m.m33 + m.m11 * m.m22 * m.m33,
     m.m03 * m.m22 * m.m31 - m.m02 * m.m23 * m.m31 - m.m03 * m.m21 * m.m32 +
       m.m01 * m.m23 * m.m32 + m.m02 * m.m21 * m.m33 - m.m01 * m.m22 * m.m33,
     m.m02 * m.m13 * m.m31 - m.m03 * m.m12 * m.m31 + m.m03 * m.m11 * m.m32 -
       m.m01 * m.m13 * m.m32 - m.m02 * m.m11 * m.m33 + m.m01 * m.m12 * m.m33,
     m.m03 * m.m12 * m.m21 - m.m02 * m.m13 * m.m21 - m.m03 * m.m11 * m.m22 +
       m.m01 * m.m13 * m.m22 + m.m02 * m.m11 * m.m23 - m.m01 * m.m12 * m.m23,
     m.m13 * m.m22 * m.m30 - m.m12 * m.m23 * m.m30 - m.m13 * m.m20 * m.m32 +
       m.m10 * m.m23 * m.m32 + m.m12 * m.m20 * m.m33 - m.m10 * m.m22 * m.m33,
     m.m02 * m.m23 * m.m30 - m.m03 * m.m22 * m.m30 + m.m03 * m.m20 * m.m32 -
       m.m00 * m.m23 * m.m32 - m.m02 * m.m20 * m.m33 + m.m00 * m.m22 * m.m33,
     m.m03 * m.m12 * m.m30 - m.m02 * m.m13 * m.m30 - m.m03 * m.m10 * m.m32 +
       m.m00 * m.m13 * m.m32 + m.m02 * m.m10 * m.m33 - m.m00 * m.m12 * m.m33,
     m.m02 * m.m13 * m.m20 - m.m03 * m.m12 * m.m20 + m.m03 * m.m10 * m.m22 -
       m.m00 * m.m13 * m.m22 - m.m02 * m.m10 * m.m23 + m.m00 * m.m12 * m.m23,
     m.m11 * m.m23 * m.m30 - m.m13 * m.m21 * m.m30 + m.m13 * m.m20 * m.m31 -
       m.m10 * m.m23 * m.m31 - m.m11 * m.m20 * m.m33 + m.m10 * m.m21 * m.m33,
     m.m03 * m.m21 * m.m30 - m.m01 * m.m23 * m.m30 - m.m03 * m.m20 * m.m31 +
       m.m00 * m.m23 * m.m31 + m.m01 * m.m20 * m.m33 - m.m00 * m.m21 * m.m33,
     m.m01 * m.m13 * m.m30 - m.m03 * m.m11 * m.m30 + m.m03 * m.m10 * m.m31 -
       m.m00 * m.m13 * m.m31 - m.m01 * m.m10 * m.m33 + m.m00 * m.m11 * m.m33,
     m.m03 * m.m11 * m.m20 - m.m01 * m.m13 * m.m20 - m.m03 * m.m10 * m.m21 +
       m.m00 * m.m13 * m.m21 + m.m01 * m.m10 * m.m23 - m.m00 * m.m11 * m.m23,
     m.m12 * m.m21 * m.m30 - m.m11 * m.m22 * m.m30 - m.m12 * m.m20 * m.m31 +
       m.m10 * m.m22 * m.m31 + m.m11 * m.m20 * m.m32 - m.m10 * m.m21 * m.m32,
     m.m01 * m.m22 * m.m30 - m.m02 * m.m21 * m.m30 + m.m02 * m.m20 * m.m31 -
       m.m00 * m.m22 * m.m31 - m.m01 * m.m20 * m.m32 + m.m00 * m.m21 * m.m32,
     m.m02 * m.m11 * m.m30 - m.m01 * m.m12 * m.m30 - m.m02 * m.m10 * m.m31 +
       m.m00 * m.m12 * m.m31 + m.m01 * m.m10 * m.m32 - m.m00 * m.m11 * m.m32,
     m.m01 * m.m12 * m.m20 - m.m02 * m.m11 * m.m20 + m.m02 * m.m10 * m.m21 -
       m.m00 * m.m12 * m.m21 - m.m01 * m.m10 * m.m22 + m.m00 * m.m11 * m.m22⟩
  n.sdiv d

/-- `inverse(m) = _inverse(m, determinant(m))`. -/
def inverse (m : Matrix4) : Matrix4 :=
  inverseAux m (determinant m)

/-- `_inverse_euclidean(m, d)`: the simplified inverse assuming the last
column is 0,0,0,1 — 3×3 cofactors, zero last column, back-substituted
translation row, all divided by `d`. -/
def inverseEuclideanAux (m : Matrix4) (d : ℚ) : Matrix4 :=
  let n00 := m.m11 * m.m22 - m.m12 * m.m21
  let n10 := m.m12 * m.m20 - m.m10 * m.m22
  let n20 := m.m10 * m.m21 - m.m11 * m.m20
  let n01 := m.m02 * m.m21 - m.m01 * m.m22
  let n11 := m.m00 * m.m22 - m.m02 * m.m20
  let n21 := m.m01 * m.m20 - m.m00 * m.m21
  let n02 := m.m01 * m.m12 - m.m02 * m.m11
  let n12 := m.m02 * m.m10 - m.m00 * m.m12
  let n22 := m.m00 * m.m11 - m.m01 * m.m10
  let n30 := -m.m30 * n00 - m.m31 * n10 - m.m32 * n20
  let n31 := -m.m30 * n01 - m.m31 * n11 - m.m32 * n21
  let n32 := -m.m30 * n02 - m.m31 * n12 - m.m32 * n22
  let n33 := m.m00 * n00 + m.m01 * n10 + m.m02 * n20
  let n : Matrix4 :=
    ⟨n00, n01, n02, 0,
     n10, n11, n12, 0,
     n20, n21, n22, 0,
     n30, n31, n32, n33⟩
  n.sdiv d

/-- `inverse_euclidean(m) = _inverse_euclidean(m, determinant_euclidean(m))`. -/
def inverse_euclidean (m : Matrix4) : Matrix4 :=
  inverseEuclideanAux m (determinant_euclidean m)

/-- `find_near_far(m)`: recover (near, far) from a projection (or composite)
matrix.  The source's `m.I` (numpy matrix inverse) is modelled by the exact
adjugate-over-determinant `inverse` of this file, which is the same
mathematical inverse whenever `determinant m ≠ 0`. -/
def find_near_far (m : Matrix4) : ℚ × ℚ :=
  let near_origin := vecMul ⟨0, 0, 0, 1⟩ (inverse m)
  let near_origin := near_origin.sdiv near_origin.w
  let near := (vecMul near_origin m).w
  let far_origin := vecMul ⟨0, 0, 1, 1⟩ (inverse m)
  let far_origin := far_origin.sdiv far_origin.w
  let far := (vecMul far_origin m).w
  (near, far)

/-- `inverse_matrix_euclidean_m0(m, d)`: first row of the Euclidean inverse
(three cofactors over `d`, last slot 0). -/
def inverse_matrix_euclidean_m0 (m : Matrix4) (d : ℚ) : Vec4 :=
  let c00 := m.m11 * m.m22 - m.m12 * m.m21
  let c01 := m.m02 * m.m21 - m.m01 * m.m22
  let c02 := m.m01 * m.m12 - m.m02 * m.m11
  ⟨c00 / d, c01 / d, c02 / d, 0⟩

/-- `mv_mvp_m00i(mv, mvp)`: top-left cell of the inverse projection matrix
from a model-view matrix and a model-view-projection matrix. -/
def mv_mvp_m00i (mv mvp : Matrix4) : ℚ :=
  let d := determinant_euclidean mv
  let mvi := inverse_matrix_euclidean_m0 mv d
  let p00 := mvi.x * mvp.m00 + mvi.y * mvp.m10 + mvi.z * mvp.m20
  1 / p00

example : determinant identity4 = 1 := by
  norm_num [determinant, identity4]

example : multiply identity4 identity4 = identity4 := by
  norm_num [multiply, identity4, Matrix4.eq_iff_cells]

/-- A matrix with two identical rows (rows 0 and 1), hence singular:
the concrete input of the singular-inversion scenario. -/
def singularExample : Matrix4 :=
  ⟨1, 0, 0, 0,
   1, 0, 0, 0,
   0, 0, 1, 0,
   0, 0, 0, 1⟩

/-- When the last column of `m` is exactly (0,0,0,1), the general 24-term
determinant collapses to the Euclidean 6-term one. -/
theorem det_eq_det_euclidean (m : Matrix4) (h03 : m.m03 = 0) (h13 : m.m13 = 0)
    (h23 : m.m23 = 0) (h33 : m.m33 = 1) :
    determinant m = determinant_euclidean m := by
  simp only [determinant, determinant_euclidean, h03, h13, h23, h33]
  ring

/-- C9: for 0 < near < far and any separation and convergence, the
stereo-correction multiplier times its inverse is the 4×4 identity. -/
theorem multiplier_mul_multiplier_inv_eq_identity (near far sep conv : ℚ)
    (hn : 0 < near) (hf : near < far) :
    multiply (nv_equiv_multiplier near far sep conv)
      (nv_equiv_multiplier_inv near far sep conv) = identity4 := by
  rw [Matrix4.eq_iff_cells]
  dsimp only [multiply, nv_equiv_multiplier, nv_equiv_multiplier_inv, identity4]
  refine ⟨?_, ?_, ?_, ?_, ?_, ?_, ?_, ?_, ?_, ?_, ?_, ?_, ?_, ?_, ?_, ?_⟩ <;>
    ring

/-- Witness for C9 at near = 1, far = 2, sep = 1/10, conv = 3. -/
theorem multiplier_mul_multiplier_inv_eq_identity_witness :
    multiply (nv_equiv_multiplier 1 2 (1/10) 3)
      (nv_equiv_multiplier_inv 1 2 (1/10) 3) = identity4 :=
  multiplier_mul_multiplier_inv_eq_identity 1 2 (1/10) 3 (by norm_num)
    (by norm_num)

/-- C8 (counterexample): applying `translate(1,2,3) × scale(2,2,2)`, in that
order, to the row vector (0,0,0,1) yields (2,4,6,1), not the (1,2,3,1) the
claim states (the point is translated first and then scaled). -/
theorem translate_scale_claim_false :
    vecMul ⟨0, 0, 0, 1⟩ (multiply (translate 1 2 3) (scale 2 2 2)) ≠
      (⟨1, 2, 3, 1⟩ : Vec4) := by
  norm_num [vecMul, multiply, translate, scale, Vec4.eq_iff_comps]

/-- C8 (amended): the product `scale(2,2,2) × translate(1,2,3)`, in that
order, applied under the row-vector convention to (0,0,0,1) yields
(1,2,3,1), and applied to (1,0,0,1) yields (3,2,3,1). -/
theorem scale_translate_points :
    vecMul ⟨0, 0, 0, 1⟩ (multiply (scale 2 2 2) (translate 1 2 3)) =
      (⟨1, 2, 3, 1⟩ : Vec4) ∧
    vecMul ⟨1, 0, 0, 1⟩ (multiply (scale 2 2 2) (translate 1 2 3)) =
      (⟨3, 2, 3, 1⟩ : Vec4) := by
  norm_num [vecMul, multiply, translate, scale, Vec4.eq_iff_comps]

/-- C10: `determinant_euclidean` reads only the upper-left 3×3 block — two
matrices agreeing there get the same value, whatever their last column or
translation row; in particular a matrix whose last column is not (0,0,0,1)
is accepted silently. -/
theorem determinant_euclidean_ignores_last_column (m1 m2 : Matrix4)
    (h : m1.m00 = m2.m00 ∧ m1.m01 = m2.m01 ∧ m1.m02 = m2.m02 ∧
         m1.m10 = m2.m10 ∧ m1.m11 = m2.m11 ∧ m1.m12 = m2.m12 ∧
         m1.m20 = m2.m20 ∧ m1.m21 = m2.m21 ∧ m1.m22 = m2.m22) :
    determinant_euclidean m1 = determinant_euclidean m2 := by
  obtain ⟨h00, h01, h02, h10, h11, h12, h20, h21, h22⟩ := h
  simp only [determinant_euclidean, h00, h01, h02, h10, h11, h12, h20, h21, h22]

/-- Witness for C10: a Euclidean matrix and a matrix with last column
(9,9,9,9) that share the upper-left 3×3 block get the same value. -/
theorem determinant_euclidean_ignores_last_column_witness :
    determinant_euclidean (translate 5 6 7) =
      determinant_euclidean
        (⟨1, 0, 0, 9, 0, 1, 0, 9, 0, 0, 1, 9, 4, 5, 6, 9⟩ : Matrix4) :=
  determinant_euclidean_ignores_last_column (translate 5 6 7)
    ⟨1, 0, 0, 9, 0, 1, 0, 9, 0, 0, 1, 9, 4, 5, 6, 9⟩
    (by norm_num [translate])

/-- C4: the code raises no singular-matrix error.  On the singular matrix
with rows 0 and 1 identical the determinant is 0, and `inverse` still
returns a matrix — every cofactor divided by the zero determinant (the
source's `n / d` with `d = 0`, which numpy fills with Inf/NaN under a mere
warning; in the total division of `ℚ` the cells come out 0).  There is no
error channel in `_inverse`/`inverse` at all. -/
theorem inverse_singular_no_error :
    determinant singularExample = 0 ∧
    inverse singularExample =
      (⟨0, 0, 0, 0, 0, 0, 0, 0, 0, 0, 0, 0, 0, 0, 0, 0⟩ : Matrix4) := by
  norm_num [determinant, singularExample, inverse, inverseAux, Matrix4.sdiv,
    Matrix4.eq_iff_cells]

/-- C7: `projection` performs no input validation.  At the domain-invalid
input far = near (= 1) it still produces a matrix — `q = far/(far-near)`
divides by zero (in Python this surfaces as a bare `ZeroDivisionError` from
the arithmetic, not a descriptive input-range error; under the total
division of `ℚ` the two `q` cells come out 0) — and no check of
`fov < 180°`, `near < far` or `near, far > 0` exists anywhere in the
builder. -/
theorem projection_no_input_validation :
    projection 1 1 1 1 =
      (⟨1, 0, 0, 0, 0, 1, 0, 0, 0, 0, 0, 1, 0, 0, 0, 0⟩ : Matrix4) := by
  norm_num [projection, Matrix4.eq_iff_cells]

set_option maxHeartbeats 1600000 in
/-- C1: for every matrix with nonzero determinant, the product of the matrix
with its cofactor/adjugate inverse is the 4×4 identity (exactly, in the
rational model; the source checks this to 1e-9 relative tolerance in
floating point). -/
theorem mul_inverse_eq_identity (m : Matrix4) (hd : determinant m ≠ 0) :
    multiply m (inverse m) = identity4 := by
  rw [Matrix4.eq_iff_cells]
  simp only [determinant] at hd
  dsimp only [multiply, inverse, inverseAux, Matrix4.sdiv, identity4,
    determinant]
  refine ⟨?_, ?_, ?_, ?_, ?_, ?_, ?_, ?_, ?_, ?_, ?_, ?_, ?_, ?_, ?_, ?_⟩ <;>
    (field_simp; try ring)

/-- Witness for C1 at the Euclidean example matrix `translate(1,2,3)`,
whose determinant is 1. -/
theorem mul_inverse_eq_identity_witness :
    multiply (translate 1 2 3) (inverse (translate 1 2 3)) = identity4 :=
  mul_inverse_eq_identity (translate 1 2 3)
    (by norm_num [determinant, translate])

set_option maxHeartbeats 1600000 in
/-- C2: when the last column of `m` is exactly (0,0,0,1), the general
24-term determinant equals the 6-term Euclidean determinant, and — when that
determinant is nonzero — the general cofactor inverse equals the Euclidean
inverse, cell for cell. -/
theorem euclidean_specialization_matches_general (m : Matrix4)
    (h03 : m.m03 = 0) (h13 : m.m13 = 0) (h23 : m.m23 = 0) (h33 : m.m33 = 1) :
    determinant m = determinant_euclidean m ∧
      (determinant m ≠ 0 → inverse m = inverse_euclidean m) := by
  have hdet := det_eq_det_euclidean m h03 h13 h23 h33
  refine ⟨hdet, fun hd => ?_⟩
  have hd' : determinant_euclidean m ≠ 0 := hdet ▸ hd
  rw [Matrix4.eq_iff_cells]
  dsimp only [inverse, inverseAux, inverse_euclidean, inverseEuclideanAux,
    Matrix4.sdiv]
  refine ⟨?_, ?_, ?_, ?_, ?_, ?_, ?_, ?_, ?_, ?_, ?_, ?_, ?_, ?_, ?_, ?_⟩ <;>
    (simp only [h03, h13, h23, h33, hdet]; field_simp; try ring)

/-- Witness for C2 at `translate(1,2,3)`. -/
theorem euclidean_specialization_matches_general_witness :
    determinant (translate 1 2 3) = determinant_euclidean (translate 1 2 3) ∧
      (determinant (translate 1 2 3) ≠ 0 →
        inverse (translate 1 2 3) = inverse_euclidean (translate 1 2 3)) :=
  euclidean_specialization_matches_general (translate 1 2 3) rfl rfl rfl rfl

/-- C3: for 0 < near < far (and any tan factors w, h, separation s and
convergence c), right-multiplying the mono projection by the stereo
multiplier gives exactly the direct stereo-pair projection of the right eye,
whose shear cells (2,0) and (3,0) are +s and -s·c. -/
theorem projection_mul_multiplier_eq_stereo_right (near far w h s c : ℚ)
    (hn : 0 < near) (hf : near < far) :
    multiply (projection near far w h) (nv_equiv_multiplier near far s c) =
      (projection_nv_equiv near far w h s c).2 ∧
    (multiply (projection near far w h)
      (nv_equiv_multiplier near far s c)).m20 = s ∧
    (multiply (projection near far w h)
      (nv_equiv_multiplier near far s c)).m30 = -(s * c) := by
  have hne : near ≠ 0 := ne_of_gt hn
  have hfn : far - near ≠ 0 := sub_ne_zero.mpr (ne_of_gt hf)
  have hfar : far ≠ 0 := ne_of_gt (lt_trans hn hf)
  refine ⟨?_, ?_, ?_⟩
  · rw [Matrix4.eq_iff_cells]
    dsimp only [multiply, projection, nv_equiv_multiplier, projection_nv_equiv]
    refine ⟨?_, ?_, ?_, ?_, ?_, ?_, ?_, ?_, ?_, ?_, ?_, ?_, ?_, ?_, ?_, ?_⟩ <;>
      (field_simp; try ring)
  · dsimp only [multiply, projection, nv_equiv_multiplier]
    field_simp
    ring
  · dsimp only [multiply, projection, nv_equiv_multiplier]
    field_simp
    ring

/-- Witness for C3 at near = 1, far = 2, w = h = 1, s = 1/10, c = 3. -/
theorem projection_mul_multiplier_eq_stereo_right_witness :
    multiply (projection 1 2 1 1) (nv_equiv_multiplier 1 2 (1/10) 3) =
      (projection_nv_equiv 1 2 1 1 (1/10) 3).2 ∧
    (multiply (projection 1 2 1 1) (nv_equiv_multiplier 1 2 (1/10) 3)).m20 =
      1/10 ∧
    (multiply (projection 1 2 1 1) (nv_equiv_multiplier 1 2 (1/10) 3)).m30 =
      -(1/10 * 3) :=
  projection_mul_multiplier_eq_stereo_right 1 2 1 1 (1/10) 3 (by norm_num)
    (by norm_num)

/-- The determinant of the projection matrix in closed form:
`w · h · q · near` with `q = far/(far-near)`. -/
theorem determinant_projection (near far w h : ℚ) (hfn : far - near ≠ 0) :
    determinant (projection near far w h) =
      far * near * w * h / (far - near) := by
  dsimp only [determinant, projection]
  field_simp
  ring

/-- The cofactor inverse of the projection matrix in closed form. -/
theorem inverse_projection (near far w h : ℚ)
    (hw : w ≠ 0) (hh : h ≠ 0) (hn : 0 < near) (hf : near < far) :
    inverse (projection near far w h) =
      (⟨1/w, 0, 0, 0,
        0, 1/h, 0, 0,
        0, 0, 0, 1/far - 1/near,
        0, 0, 1, 1/near⟩ : Matrix4) := by
  have hne : near ≠ 0 := ne_of_gt hn
  have hfn : far - near ≠ 0 := sub_ne_zero.mpr (ne_of_gt hf)
  have hfar : far ≠ 0 := ne_of_gt (lt_trans hn hf)
  rw [inverse, determinant_projection near far w h hfn, Matrix4.eq_iff_cells]
  dsimp only [inverseAux, Matrix4.sdiv, projection]
  refine ⟨?_, ?_, ?_, ?_, ?_, ?_, ?_, ?_, ?_, ?_, ?_, ?_, ?_, ?_, ?_, ?_⟩ <;>
    (field_simp [hw, hh, hne, hfn, hfar]; try ring; try simp)

/-- C5: for 0 < near < far and nonzero tan factors, `find_near_far`
recovers exactly the (near, far) pair the projection was built from. -/
theorem find_near_far_round_trip (near far w h : ℚ)
    (hw : w ≠ 0) (hh : h ≠ 0) (hn : 0 < near) (hf : near < far) :
    find_near_far (projection near far w h) = (near, far) := by
  have hne : near ≠ 0 := ne_of_gt hn
  have hfn : far - near ≠ 0 := sub_ne_zero.mpr (ne_of_gt hf)
  have hfar : far ≠ 0 := ne_of_gt (lt_trans hn hf)
  dsimp only [find_near_far]
  rw [inverse_projection near far w h hw hh hn hf]
  dsimp only [vecMul, Vec4.sdiv, projection]
  rw [Prod.mk.injEq]
  constructor <;> (field_simp [hw, hh, hne, hfn, hfar]; try ring; try
    (rw [mul_assoc, ← mul_pow, mul_inv_cancel₀ hne]; simp))

/-- Witness for C5 at near = 1, far = 2, w = h = 1. -/
theorem find_near_far_round_trip_witness :
    find_near_far (projection 1 2 1 1) = (1, 2) :=
  find_near_far_round_trip 1 2 1 1 (by norm_num) (by norm_num) (by norm_num)
    (by norm_num)

/-- C6: for an invertible model-view matrix whose last column is (0,0,0,1)
and the composite mvp = mv × projection, `mv_mvp_m00i` returns exactly the
top-left cell of the inverse projection matrix, which is 1/w (the tangent of
half the horizontal field of view, consistent with the `fov_w` query). -/
theorem mv_mvp_m00i_eq_inverse_projection_m00 (mv : Matrix4)
    (near far w h : ℚ)
    (h03 : mv.m03 = 0) (h13 : mv.m13 = 0) (h23 : mv.m23 = 0)
    (h33 : mv.m33 = 1) (hdet : determinant mv ≠ 0)
    (hw : w ≠ 0) (hh : h ≠ 0) (hn : 0 < near) (hf : near < far) :
    mv_mvp_m00i mv (multiply mv (projection near far w h)) =
      (inverse (projection near far w h)).m00 ∧
    (inverse (projection near far w h)).m00 = 1 / w := by
  have hde : determinant_euclidean mv ≠ 0 := by
    rw [← det_eq_det_euclidean mv h03 h13 h23 h33]; exact hdet
  have hm00 : (inverse (projection near far w h)).m00 = 1 / w := by
    rw [inverse_projection near far w h hw hh hn hf]
  refine ⟨?_, hm00⟩
  rw [hm00]
  dsimp only [mv_mvp_m00i, inverse_matrix_euclidean_m0, multiply, projection]
  congr 1
  field_simp
  dsimp only [determinant_euclidean] at hde ⊢
  ring

/-- Witness for C6 at mv = translate(1,2,3), near = 1, far = 2, w = h = 1. -/
theorem mv_mvp_m00i_eq_inverse_projection_m00_witness :
    mv_mvp_m00i (translate 1 2 3)
        (multiply (translate 1 2 3) (projection 1 2 1 1)) =
      (inverse (projection 1 2 1 1)).m00 ∧
    (inverse (projection 1 2 1 1)).m00 = 1 / 1 :=
  mv_mvp_m00i_eq_inverse_projection_m00 (translate 1 2 3) 1 2 1 1 rfl rfl rfl
    rfl (by norm_num [determinant, translate]) (by norm_num) (by norm_num)
    (by norm_num) (by norm_num)

end MatrixPy
